import Mathlib

/-!
Verification of the `exchange_rate_tracker` Anchor program
(src/programs/fiat-crypto-tracker/src/lib.rs).

The program keeps a singleton `RateData` record holding an `authority`
public key and a vector of `Oracle` entries.  The instructions are
`initialize`, `add_oracle`, `update_rate`, and the venue-migration pair
`delegate` / `undelegate` which hand write-authority for the record to an
external delegation program.

The embedding below translates each instruction handler into a pure Lean
function over an explicit state.  Anchor account constraints that guard a
handler (`has_one = authority` on `ManageOracle`, `DelegateRateData` and
`UndelegateRateData`) are modelled as an explicit signer check in front of
the handler body.  The `Clock` sysvar read in `update_rate` is modelled as
an extra timestamp argument.
-/

namespace FiatCryptoTracker

/-- A Solana public key, modelled as an opaque equality-comparable identity
(the source only ever compares keys for equality). -/
structure Pubkey where
  key : Nat
deriving DecidableEq, Repr

/-- Source struct `Oracle` (lib.rs lines 200-205): `name : String`,
`pubkey : Pubkey`, `rate : u64`, `last_updated : i64`.  `rate` is only ever
assigned, never computed with, so `Nat` models `u64` faithfully; likewise
`Int` for the `i64` timestamp. -/
structure Oracle where
  name : String
  pubkey : Pubkey
  rate : Nat
  last_updated : Int
deriving DecidableEq, Repr

/-- Source struct `RateData` (lib.rs lines 194-197): the registry record
holding the administrator key and the ordered oracle list. -/
structure RateData where
  authority : Pubkey
  oracles : List Oracle
deriving DecidableEq, Repr

/-- Source enum `ErrorCode` (lib.rs lines 208-213). -/
inductive ErrorCode where
  | UnauthorizedOracle
  | OracleAlreadyExists
deriving DecidableEq, Repr

/-- Failures a transaction can surface.  `program` wraps the program's own
`ErrorCode`; `constraintHasOne` is the Anchor `has_one = authority`
constraint violation (a non-administrator signer); `invalidStateTransition`
and `adapterFailure` are the migration failures of the spec's error
taxonomy, raised by the external delegation program. -/
inductive TxError where
  | program (e : ErrorCode)
  | constraintHasOne
  | invalidStateTransition
  | adapterFailure
deriving DecidableEq, Repr

/-- Handler `initialize` (lib.rs lines 18-24): creates the record with
`authority = ctx.accounts.authority.key` and an empty oracle vector.
(The source name is a Lean keyword, hence `initRecord`.) -/
def initRecord (authority : Pubkey) : RateData :=
  { authority := authority, oracles := [] }

/-- Handler `add_oracle` (lib.rs lines 27-41).  The leading signer check
models the `has_one = authority` constraint of the `ManageOracle` accounts
struct; the body mirrors the duplicate scan
`rate_data.oracles.iter().any(|o| o.pubkey == oracle_pubkey)` and the
`push` of the fresh entry with `rate = 0`, `last_updated = 0`. -/
def add_oracle (signer : Pubkey) (rd : RateData) (name : String)
    (oracle_pubkey : Pubkey) : Except TxError RateData :=
  if signer = rd.authority then
    if rd.oracles.any fun o => o.pubkey == oracle_pubkey then
      .error (.program .OracleAlreadyExists)
    else
      .ok { rd with
            oracles := rd.oracles ++
              [{ name := name, pubkey := oracle_pubkey, rate := 0,
                 last_updated := 0 }] }
  else
    .error .constraintHasOne

/-- The two field assignments `oracle.rate = new_rate;
oracle.last_updated = clock.unix_timestamp` performed on the found entry
in `update_rate`. -/
def withRate (o : Oracle) (new_rate : Nat) (now : Int) : Oracle :=
  { o with rate := new_rate, last_updated := now }

/-- The in-place mutation of
`rate_data.oracles.iter_mut().find(|o| o.pubkey == *oracle_signer.key)`
in `update_rate`: walk the list, update the first entry whose `pubkey`
equals the signer, return `none` when no entry matches. -/
def updateOracles (signer : Pubkey) (now : Int) (new_rate : Nat) :
    List Oracle → Option (List Oracle)
  | [] => none
  | o :: rest =>
    if o.pubkey = signer then
      some (withRate o new_rate now :: rest)
    else
      match updateOracles signer now new_rate rest with
      | some rest2 => some (o :: rest2)
      | none => none

/-- Handler `update_rate` (lib.rs lines 44-56): the signing oracle's entry
gets `rate = new_rate` and `last_updated = clock.unix_timestamp`; with no
matching entry the handler returns `ErrorCode::UnauthorizedOracle`.  The
clock read is passed in as `now`. -/
def update_rate (rd : RateData) (signer : Pubkey) (now : Int)
    (new_rate : Nat) : Except TxError RateData :=
  match updateOracles signer now new_rate rd.oracles with
  | some os => .ok { rd with oracles := os }
  | none => .error (.program .UnauthorizedOracle)

/-- Which venue currently holds write-authority for the record: the spec's
authority-location state machine with states `BASE` and `DELEGATED`. -/
inductive AuthLoc where
  | base
  | delegated
deriving DecidableEq, Repr

/-- Source struct `DelegateConfig` as the handler `delegate` fills it
(lib.rs lines 79-82): `commit_frequency_ms : u32` and an optional
`validator` identity for the secondary venue. -/
structure DelegateConfig where
  commit_frequency_ms : Nat
  validator : Option Pubkey
deriving DecidableEq, Repr

/-- Full state: the persistent record together with the authority-location
of the spec's migration state machine. -/
structure Registry where
  record : RateData
  loc : AuthLoc
deriving DecidableEq, Repr

/-- Modelled from the spec: the authority-location transition enforced by
the external Venue Migration Adapter (the `delegate_account` CPI of the
delegation program, not code of this repository).  `delegate` is valid
only from `BASE`; from `DELEGATED` it fails with `InvalidStateTransition`;
an adapter rejection is `AdapterFailure` and leaves the state unchanged.
The engine-side part is from the source (lib.rs lines 60-92): the signer
must be the administrator (`has_one = authority`), the record content is
not touched, and the `DelegateConfig` sent to the adapter is built inside
the handler with `commit_frequency_ms = 1000` and
`validator = Some(authority.key)` — the caller supplies no payload.
`adapterOk` stands for the adapter's verdict on an otherwise well-formed
request. -/
def delegate (signer : Pubkey) (st : Registry) (adapterOk : Bool) :
    Except TxError (Registry × DelegateConfig) :=
  if signer = st.record.authority then
    match st.loc with
    | .base =>
      if adapterOk then
        .ok ({ st with loc := .delegated },
             { commit_frequency_ms := 1000,
               validator := some st.record.authority })
      else
        .error .adapterFailure
    | .delegated => .error .invalidStateTransition
  else
    .error .constraintHasOne

/-- Modelled from the spec: the reclamation transition of the
authority-location state machine (the `undelegate_account` CPI, not code
of this repository).  Valid only from `DELEGATED`; from `BASE` it fails
with `InvalidStateTransition`.  The engine-side part is from the source
(lib.rs lines 95-116): administrator signer required, record content
untouched by the engine. -/
def undelegate (signer : Pubkey) (st : Registry) (adapterOk : Bool) :
    Except TxError Registry :=
  if signer = st.record.authority then
    match st.loc with
    | .delegated =>
      if adapterOk then .ok { st with loc := .base }
      else .error .adapterFailure
    | .base => .error .invalidStateTransition
  else
    .error .constraintHasOne

/-- One request to the program after initialization: which instruction is
invoked, by which signer, with which payload; `adapterOk` carries the
external adapter's verdict for the migration instructions. -/
inductive Op where
  | addOracleOp (signer : Pubkey) (name : String) (pk : Pubkey)
  | updateRateOp (signer : Pubkey) (now : Int) (new_rate : Nat)
  | delegateOp (signer : Pubkey) (adapterOk : Bool)
  | undelegateOp (signer : Pubkey) (adapterOk : Bool)

/-- Transaction semantics: a failed instruction commits nothing, so on any
error the state is returned unchanged. -/
def applyOp (st : Registry) (op : Op) : Registry :=
  match op with
  | .addOracleOp s n pk =>
    match add_oracle s st.record n pk with
    | .ok rd => { st with record := rd }
    | .error _ => st
  | .updateRateOp s now v =>
    match update_rate st.record s now v with
    | .ok rd => { st with record := rd }
    | .error _ => st
  | .delegateOp s ok =>
    match delegate s st ok with
    | .ok res => res.1
    | .error _ => st
  | .undelegateOp s ok =>
    match undelegate s st ok with
    | .ok st2 => st2
    | .error _ => st

/-- The state right after `initialize`: fresh record, authority-location
`BASE`. -/
def initRegistry (a : Pubkey) : Registry :=
  { record := initRecord a, loc := .base }

/-- Run a sequence of requests from the freshly initialized state. -/
def run (a : Pubkey) (ops : List Op) : Registry :=
  ops.foldl applyOp (initRegistry a)

/-- The credentials registered in a record, in order. -/
def creds (rd : RateData) : List Pubkey :=
  rd.oracles.map Oracle.pubkey

/-- A concrete two-oracle record used to instantiate theorems on concrete
inputs. -/
def rdSample : RateData :=
  { authority := ⟨7⟩,
    oracles := [{ name := "BankA", pubkey := ⟨1⟩, rate := 0, last_updated := 0 },
                { name := "MarketB", pubkey := ⟨2⟩, rate := 0, last_updated := 0 }] }

/-- The sample record sitting at the base venue. -/
def stSample : Registry :=
  { record := rdSample, loc := .base }

/-- The sample record while delegated to the secondary venue. -/
def stSampleDelegated : Registry :=
  { record := rdSample, loc := .delegated }

/-! ## Helper lemmas -/

/-- A successful `add_oracle` call returns the input record with exactly
the fresh zero-initialized entry appended. -/
theorem add_oracle_ok_shape {signer : Pubkey} {rd rd' : RateData}
    {name : String} {pk : Pubkey}
    (h : add_oracle signer rd name pk = .ok rd') :
    rd' = { rd with oracles := rd.oracles ++
      [{ name := name, pubkey := pk, rate := 0, last_updated := 0 }] } := by
  unfold add_oracle at h
  split at h
  · split at h
    · cases h
    · injection h with h2
      exact h2.symm
  · cases h

/-- A successful `add_oracle` call implies the supplied credential was not
yet registered. -/
theorem add_oracle_ok_not_mem {signer : Pubkey} {rd rd' : RateData}
    {name : String} {pk : Pubkey}
    (h : add_oracle signer rd name pk = .ok rd') :
    pk ∉ creds rd := by
  unfold add_oracle at h
  split at h
  · split at h
    · cases h
    · next hany =>
      intro hmem
      obtain ⟨o, ho, hpk⟩ := List.mem_map.mp hmem
      exact hany (List.any_eq_true.mpr ⟨o, ho, by simp [hpk]⟩)
  · cases h

/-- If no entry matches the signer, the linear scan of `update_rate`
returns `none`. -/
theorem updateOracles_eq_none {s : Pubkey} {now : Int} {v : Nat} :
    ∀ (os : List Oracle), (∀ o ∈ os, o.pubkey ≠ s) →
      updateOracles s now v os = none := by
  intro os
  induction os with
  | nil => intro _; rfl
  | cons o rest ih =>
    intro h
    unfold updateOracles
    rw [if_neg (h o (by simp)), ih (fun o2 ho2 => h o2 (by simp [ho2]))]

/-- The scan of `update_rate` never changes which credentials are
registered, nor their order. -/
theorem updateOracles_creds {s : Pubkey} {now : Int} {v : Nat} :
    ∀ {os os2 : List Oracle}, updateOracles s now v os = some os2 →
      os2.map Oracle.pubkey = os.map Oracle.pubkey := by
  intro os
  induction os with
  | nil => intro os2 h; cases h
  | cons o rest ih =>
    intro os2 h
    unfold updateOracles at h
    split at h
    · injection h with h2
      subst h2
      simp [withRate]
    · split at h
      · next rest2 heq =>
        injection h with h2
        subst h2
        simp [ih heq]
      · cases h

/-- When some entry matches the signer, the scan of `update_rate` succeeds
and rewrites exactly one matching entry in place, leaving every other
position untouched. -/
theorem updateOracles_found {s : Pubkey} {now : Int} {v : Nat} :
    ∀ (os : List Oracle), (∃ o ∈ os, o.pubkey = s) →
      ∃ i, ∃ hlt : i < os.length,
        (os.get ⟨i, hlt⟩).pubkey = s ∧
        updateOracles s now v os =
          some (os.set i (withRate (os.get ⟨i, hlt⟩) v now)) := by
  intro os
  induction os with
  | nil => rintro ⟨o, ho, -⟩; cases ho
  | cons o rest ih =>
    rintro ⟨o2, ho2, hpk⟩
    by_cases hhead : o.pubkey = s
    · refine ⟨0, by simp, hhead, ?_⟩
      unfold updateOracles
      rw [if_pos hhead]
      rfl
    · have hrest : ∃ o3 ∈ rest, o3.pubkey = s := by
        rcases List.mem_cons.mp ho2 with h1 | h1
        · exact absurd hpk (h1 ▸ hhead)
        · exact ⟨o2, h1, hpk⟩
      obtain ⟨i, hlt, hget, heq⟩ := ih hrest
      refine ⟨i + 1, by simpa using Nat.succ_lt_succ hlt, by simpa using hget, ?_⟩
      unfold updateOracles
      rw [if_neg hhead, heq]
      rfl

/-- A successful `update_rate` call only rewrites the oracle list through
the scan; the authority field is copied over. -/
theorem update_rate_ok_shape {rd rd' : RateData} {s : Pubkey} {now : Int}
    {v : Nat} (h : update_rate rd s now v = .ok rd') :
    ∃ os2, updateOracles s now v rd.oracles = some os2 ∧
      rd' = { rd with oracles := os2 } := by
  unfold update_rate at h
  split at h
  · next os heq =>
    injection h with h2
    exact ⟨os, heq, h2.symm⟩
  · cases h

/-- A successful `delegate` call happens exactly from `BASE`, with the
administrator signing and the adapter accepting; it flips the location to
`DELEGATED`, leaves the record content untouched, and emits the hardcoded
`DelegateConfig` of the handler. -/
theorem delegate_ok_shape {signer : Pubkey} {st : Registry}
    {adapterOk : Bool} {res : Registry × DelegateConfig}
    (h : delegate signer st adapterOk = .ok res) :
    res = ({ st with loc := .delegated },
           { commit_frequency_ms := 1000,
             validator := some st.record.authority }) ∧
    signer = st.record.authority ∧ st.loc = .base ∧ adapterOk = true := by
  unfold delegate at h
  split at h
  · next hsig =>
    split at h
    · next hloc =>
      split at h
      · next hok =>
        injection h with h2
        exact ⟨h2.symm, hsig, hloc, hok⟩
      · cases h
    · cases h
  · cases h

/-- A successful `undelegate` call happens exactly from `DELEGATED`, with
the administrator signing and the adapter accepting; it flips the location
back to `BASE` and leaves the record content untouched. -/
theorem undelegate_ok_shape {signer : Pubkey} {st : Registry}
    {adapterOk : Bool} {st2 : Registry}
    (h : undelegate signer st adapterOk = .ok st2) :
    st2 = { st with loc := .base } ∧
    signer = st.record.authority ∧ st.loc = .delegated ∧ adapterOk = true := by
  unfold undelegate at h
  split at h
  · next hsig =>
    split at h
    · next hloc =>
      split at h
      · next hok =>
        injection h with h2
        exact ⟨h2.symm, hsig, hloc, hok⟩
      · cases h
    · cases h
  · cases h

/-- No instruction ever rewrites the `authority` field of the record. -/
theorem applyOp_authority (st : Registry) (op : Op) :
    (applyOp st op).record.authority = st.record.authority := by
  cases op with
  | addOracleOp s n pk =>
    simp only [applyOp]
    cases heq : add_oracle s st.record n pk with
    | ok rd' => simp [add_oracle_ok_shape heq]
    | error e => rfl
  | updateRateOp s now v =>
    simp only [applyOp]
    cases heq : update_rate st.record s now v with
    | ok rd' =>
      obtain ⟨os2, -, hshape⟩ := update_rate_ok_shape heq
      simp [hshape]
    | error e => rfl
  | delegateOp s ok =>
    simp only [applyOp]
    cases heq : delegate s st ok with
    | ok res => simp [(delegate_ok_shape heq).1]
    | error e => rfl
  | undelegateOp s ok =>
    simp only [applyOp]
    cases heq : undelegate s st ok with
    | ok st2 => simp [(undelegate_ok_shape heq).1]
    | error e => rfl

/-- No instruction introduces a duplicate credential. -/
theorem applyOp_creds_nodup (st : Registry) (op : Op)
    (h : (creds st.record).Nodup) : (creds (applyOp st op).record).Nodup := by
  cases op with
  | addOracleOp s n pk =>
    simp only [applyOp]
    cases heq : add_oracle s st.record n pk with
    | ok rd' =>
      have hfresh := add_oracle_ok_not_mem heq
      simp only [add_oracle_ok_shape heq, creds] at *
      simp only [List.map_append, List.nodup_append]
      exact ⟨h, by simp, by simpa [List.disjoint_singleton] using hfresh⟩
    | error e => exact h
  | updateRateOp s now v =>
    simp only [applyOp]
    cases heq : update_rate st.record s now v with
    | ok rd' =>
      obtain ⟨os2, hsome, hshape⟩ := update_rate_ok_shape heq
      simpa [hshape, creds, updateOracles_creds hsome] using h
    | error e => exact h
  | delegateOp s ok =>
    simp only [applyOp]
    cases heq : delegate s st ok with
    | ok res => simpa [(delegate_ok_shape heq).1] using h
    | error e => exact h
  | undelegateOp s ok =>
    simp only [applyOp]
    cases heq : undelegate s st ok with
    | ok st2 => simpa [(undelegate_ok_shape heq).1] using h
    | error e => exact h

/-! ## Claim theorems -/

/-- C1: when the signer's credential equals the credential of some entry,
`update_rate v` succeeds and rewrites exactly that entry to `rate = v`,
`last_updated = now` (the clock read), leaving every other entry and the
administrator unchanged (`List.set` touches position `i` only; the record
update keeps `authority`). -/
theorem update_rate_registered_credential (rd : RateData) (signer : Pubkey)
    (now : Int) (v : Nat) (h : ∃ o ∈ rd.oracles, o.pubkey = signer) :
    ∃ i, ∃ hlt : i < rd.oracles.length,
      (rd.oracles.get ⟨i, hlt⟩).pubkey = signer ∧
      update_rate rd signer now v =
        .ok { rd with
              oracles := rd.oracles.set i (withRate (rd.oracles.get ⟨i, hlt⟩) v now) } := by
  obtain ⟨i, hlt, hget, heq⟩ := updateOracles_found rd.oracles h
  refine ⟨i, hlt, hget, ?_⟩
  unfold update_rate
  rw [heq]

/-- Witness for C1 on the concrete sample record, signed by the first
oracle's credential. -/
theorem update_rate_registered_credential_witness :
    (∃ o ∈ rdSample.oracles, o.pubkey = ⟨1⟩) ∧
    ∃ i, ∃ hlt : i < rdSample.oracles.length,
      (rdSample.oracles.get ⟨i, hlt⟩).pubkey = ⟨1⟩ ∧
      update_rate rdSample ⟨1⟩ 99 1450 =
        .ok { rdSample with
              oracles := rdSample.oracles.set i (withRate (rdSample.oracles.get ⟨i, hlt⟩) 1450 99) } :=
  ⟨by decide,
   update_rate_registered_credential rdSample ⟨1⟩ 99 1450 (by decide)⟩

/-- C2: when no entry's credential equals the signer, `update_rate` fails
with `UnauthorizedOracle` and the whole registry state is unchanged. -/
theorem update_rate_unregistered_credential (st : Registry) (signer : Pubkey)
    (now : Int) (v : Nat)
    (h : ∀ o ∈ st.record.oracles, o.pubkey ≠ signer) :
    update_rate st.record signer now v =
      .error (.program .UnauthorizedOracle) ∧
    applyOp st (.updateRateOp signer now v) = st := by
  have herr : update_rate st.record signer now v =
      .error (.program .UnauthorizedOracle) := by
    unfold update_rate
    rw [updateOracles_eq_none st.record.oracles h]
  exact ⟨herr, by simp only [applyOp]; rw [herr]⟩

/-- Witness for C2 on the concrete sample registry, signed by an
unregistered credential. -/
theorem update_rate_unregistered_credential_witness :
    (∀ o ∈ stSample.record.oracles, o.pubkey ≠ ⟨3⟩) ∧
    (update_rate stSample.record ⟨3⟩ 99 1450 =
      .error (.program .UnauthorizedOracle) ∧
    applyOp stSample (.updateRateOp ⟨3⟩ 99 1450) = stSample) :=
  ⟨by decide, update_rate_unregistered_credential stSample ⟨3⟩ 99 1450 (by decide)⟩

/-- C3: `add_oracle` called by the administrator with a credential that is
already registered fails with `OracleAlreadyExists` and changes nothing. -/
theorem add_oracle_duplicate_credential (st : Registry) (name : String)
    (pk : Pubkey) (hdup : ∃ o ∈ st.record.oracles, o.pubkey = pk) :
    add_oracle st.record.authority st.record name pk =
      .error (.program .OracleAlreadyExists) ∧
    applyOp st (.addOracleOp st.record.authority name pk) = st := by
  have hany : (st.record.oracles.any fun o => o.pubkey == pk) = true := by
    obtain ⟨o, ho, hpk⟩ := hdup
    exact List.any_eq_true.mpr ⟨o, ho, by simp [hpk]⟩
  have herr : add_oracle st.record.authority st.record name pk =
      .error (.program .OracleAlreadyExists) := by
    unfold add_oracle
    rw [if_pos rfl, if_pos hany]
  exact ⟨herr, by simp only [applyOp]; rw [herr]⟩

/-- Witness for C3 on the concrete sample registry, re-adding the first
oracle's credential. -/
theorem add_oracle_duplicate_credential_witness :
    (∃ o ∈ stSample.record.oracles, o.pubkey = ⟨1⟩) ∧
    (add_oracle stSample.record.authority stSample.record "BankA2" ⟨1⟩ =
      .error (.program .OracleAlreadyExists) ∧
    applyOp stSample (.addOracleOp stSample.record.authority "BankA2" ⟨1⟩) =
      stSample) :=
  ⟨by decide, add_oracle_duplicate_credential stSample "BankA2" ⟨1⟩ (by decide)⟩

/-- C4: in every state reachable from initialization by any sequence of
requests, no two oracle entries share a credential. -/
theorem reachable_creds_nodup (a : Pubkey) (ops : List Op) :
    (creds (run a ops).record).Nodup := by
  have hfold : ∀ (l : List Op) (st : Registry), (creds st.record).Nodup →
      (creds (l.foldl applyOp st).record).Nodup := by
    intro l
    induction l with
    | nil => intro st h; exact h
    | cons op rest ih =>
      intro st h
      rw [List.foldl_cons]
      exact ih _ (applyOp_creds_nodup st op h)
  exact hfold ops (initRegistry a) (by simp [creds, initRegistry, initRecord])

/-- C5: `add_oracle` called by the administrator with a fresh credential
succeeds and appends exactly one entry carrying the given name and
credential, with `rate = 0` and `last_updated = 0`. -/
theorem add_oracle_fresh_credential (rd : RateData) (name : String)
    (pk : Pubkey) (hfresh : ∀ o ∈ rd.oracles, o.pubkey ≠ pk) :
    add_oracle rd.authority rd name pk =
      .ok { rd with oracles := rd.oracles ++
        [{ name := name, pubkey := pk, rate := 0, last_updated := 0 }] } := by
  have hany : (rd.oracles.any fun o => o.pubkey == pk) = false := by
    rw [List.any_eq_false]
    intro o ho
    simp [hfresh o ho]
  unfold add_oracle
  rw [if_pos rfl, hany]
  rfl

/-- Witness for C5 on the concrete sample record with a fresh
credential. -/
theorem add_oracle_fresh_credential_witness :
    (∀ o ∈ rdSample.oracles, o.pubkey ≠ ⟨3⟩) ∧
    add_oracle rdSample.authority rdSample "ExchangeC" ⟨3⟩ =
      .ok { rdSample with oracles := rdSample.oracles ++
        [{ name := "ExchangeC", pubkey := ⟨3⟩, rate := 0,
           last_updated := 0 }] } :=
  ⟨by decide, add_oracle_fresh_credential rdSample "ExchangeC" ⟨3⟩ (by decide)⟩

/-- C6: the `authority` field set at initialization is never rewritten:
no single request changes it, and after any request sequence from the
initialized state it still equals the initializing requester. -/
theorem administrator_immutable :
    (∀ (st : Registry) (op : Op),
      (applyOp st op).record.authority = st.record.authority) ∧
    ∀ (a : Pubkey) (ops : List Op), (run a ops).record.authority = a := by
  refine ⟨applyOp_authority, ?_⟩
  have hfold : ∀ (l : List Op) (st : Registry),
      (l.foldl applyOp st).record.authority = st.record.authority := by
    intro l
    induction l with
    | nil => intro st; rfl
    | cons op rest ih =>
      intro st
      rw [List.foldl_cons, ih, applyOp_authority]
  intro a ops
  rw [run, hfold]
  rfl

/-- C7: migration requests from the wrong authority-location state fail
with `InvalidStateTransition`: `delegate` anywhere but `BASE` (in
particular right after a successful `delegate`), and `undelegate` at
`BASE`. -/
theorem migration_wrong_state (st : Registry) (adapterOk : Bool) :
    (st.loc = .delegated →
      delegate st.record.authority st adapterOk =
        .error .invalidStateTransition) ∧
    (st.loc = .base →
      undelegate st.record.authority st adapterOk =
        .error .invalidStateTransition) ∧
    (∀ res, delegate st.record.authority st true = .ok res →
      delegate res.1.record.authority res.1 adapterOk =
        .error .invalidStateTransition) := by
  refine ⟨?_, ?_, ?_⟩
  · intro hloc
    unfold delegate
    rw [if_pos rfl, hloc]
  · intro hloc
    unfold undelegate
    rw [if_pos rfl, hloc]
  · intro res hres
    rw [(delegate_ok_shape hres).1]
    unfold delegate
    rw [if_pos rfl]

/-- Witness for C7 at concrete states: a `delegate` while delegated, an
`undelegate` at base, and a second `delegate` after a first. -/
theorem migration_wrong_state_witness :
    (stSampleDelegated.loc = .delegated ∧
      delegate stSampleDelegated.record.authority stSampleDelegated true =
        .error .invalidStateTransition) ∧
    (stSample.loc = .base ∧
      undelegate stSample.record.authority stSample true =
        .error .invalidStateTransition) ∧
    (delegate stSample.record.authority stSample true =
        .ok (stSampleDelegated, { commit_frequency_ms := 1000, validator := some ⟨7⟩ }) ∧
      delegate stSampleDelegated.record.authority stSampleDelegated true =
        .error .invalidStateTransition) :=
  ⟨⟨rfl, (migration_wrong_state stSampleDelegated true).1 rfl⟩,
   ⟨rfl, (migration_wrong_state stSample true).2.1 rfl⟩,
   ⟨rfl, (migration_wrong_state stSample true).2.2
      (stSampleDelegated, { commit_frequency_ms := 1000, validator := some ⟨7⟩ }) rfl⟩⟩

/-- C8: a `delegate` immediately followed by an `undelegate` (both signed
by the administrator, both accepted by the adapter) restores exactly the
pre-delegate state: the record's `authority` and `oracles` are untouched
by the round trip. -/
theorem delegate_undelegate_roundtrip (st : Registry) (hloc : st.loc = .base) :
    ∃ (mid : Registry) (cfg : DelegateConfig),
      delegate st.record.authority st true = .ok (mid, cfg) ∧
      undelegate mid.record.authority mid true = .ok st := by
  obtain ⟨rec, loc⟩ := st
  have h2 : loc = .base := hloc
  subst h2
  refine ⟨⟨rec, .delegated⟩, ⟨1000, some rec.authority⟩, ?_, ?_⟩
  · unfold delegate
    rw [if_pos rfl]
    rfl
  · unfold undelegate
    rw [if_pos rfl]
    rfl

/-- Witness for C8 at the concrete sample registry. -/
theorem delegate_undelegate_roundtrip_witness :
    stSample.loc = .base ∧
    ∃ (mid : Registry) (cfg : DelegateConfig),
      delegate stSample.record.authority stSample true = .ok (mid, cfg) ∧
      undelegate mid.record.authority mid true = .ok stSample :=
  ⟨rfl, delegate_undelegate_roundtrip stSample rfl⟩

/-- C9 counterexample: no successful `delegate` ever emits a
caller-chosen payload — every emitted `DelegateConfig` carries the
hardcoded refresh interval of 1000 ms and the administrator's own key as
the designated operator, so a caller-supplied hint (say 250 ms, or a
distinct operator) is never carried. -/
theorem delegate_payload_hardcoded :
    ¬ ∃ (signer : Pubkey) (st : Registry) (adapterOk : Bool)
        (res : Registry × DelegateConfig),
        delegate signer st adapterOk = .ok res ∧
        (res.2.commit_frequency_ms ≠ 1000 ∨
         res.2.validator ≠ some st.record.authority) := by
  rintro ⟨s, st, ok, res, hres, hbad⟩
  obtain ⟨hshape, -, -, -⟩ := delegate_ok_shape hres
  subst hshape
  rcases hbad with h | h
  · exact h rfl
  · exact h rfl

/-- C9 amended: `delegate` takes no caller payload; the request it sends
to the delegation program always carries `commit_frequency_ms = 1000` and
`validator = some administrator`, both fixed inside the handler. -/
theorem delegate_fixed_payload (st : Registry) (hloc : st.loc = .base) :
    delegate st.record.authority st true =
      .ok ({ st with loc := .delegated },
           { commit_frequency_ms := 1000,
             validator := some st.record.authority }) := by
  obtain ⟨rec, loc⟩ := st
  have h2 : loc = .base := hloc
  subst h2
  unfold delegate
  rw [if_pos rfl]
  rfl

/-- Witness for the amended C9 at the concrete sample registry. -/
theorem delegate_fixed_payload_witness :
    stSample.loc = .base ∧
    delegate stSample.record.authority stSample true =
      .ok ({ stSample with loc := .delegated },
           { commit_frequency_ms := 1000,
             validator := some stSample.record.authority }) :=
  ⟨rfl, delegate_fixed_payload stSample rfl⟩

/-- C10: any successful `add_oracle` leaves the administrator and every
pre-existing entry (name, credential, rate, timestamp) unchanged; the
whole effect is the single entry appended at the end. -/
theorem add_oracle_frame (signer : Pubkey) (rd rd' : RateData)
    (name : String) (pk : Pubkey)
    (h : add_oracle signer rd name pk = .ok rd') :
    rd'.authority = rd.authority ∧
    rd'.oracles = rd.oracles ++
      [{ name := name, pubkey := pk, rate := 0, last_updated := 0 }] := by
  rw [add_oracle_ok_shape h]
  exact ⟨rfl, rfl⟩

/-- Witness for C10 on a concrete successful `add_oracle` call. -/
theorem add_oracle_frame_witness :
    add_oracle rdSample.authority rdSample "ExchangeD" ⟨4⟩ =
      .ok { rdSample with oracles := rdSample.oracles ++
        [{ name := "ExchangeD", pubkey := ⟨4⟩, rate := 0,
           last_updated := 0 }] } ∧
    ({ rdSample with oracles := rdSample.oracles ++
        [{ name := "ExchangeD", pubkey := ⟨4⟩, rate := 0,
           last_updated := 0 }] } : RateData).authority = rdSample.authority ∧
    ({ rdSample with oracles := rdSample.oracles ++
        [{ name := "ExchangeD", pubkey := ⟨4⟩, rate := 0,
           last_updated := 0 }] } : RateData).oracles = rdSample.oracles ++
      [{ name := "ExchangeD", pubkey := ⟨4⟩, rate := 0,
         last_updated := 0 }] :=
  ⟨by rfl,
   add_oracle_frame rdSample.authority rdSample _ "ExchangeD" ⟨4⟩ (by rfl)⟩

end FiatCryptoTracker
